import Mathlib

/-!
Verification development for the Instagram-to-Discord bridge repository.

The repository holds two variants of the same fetch-dedupe-publish pipeline:

* `instagram_to_discord.py` at the repository root (namespace `V1` below):
  JSON state file, Apify-only provider, single image/video URL extraction.
* `scripts/instagram_to_discord.py` (namespace `V2` below): plain-text
  shortcode state file, provider chain with subprocess timeout, media
  download with size limits, webhook retries.

Pure functions are translated directly; effectful code (file system,
HTTP) is embedded by passing the environment's responses explicitly and
returning `Except` for paths where the Python code raises.
-/

/-- Model of a Python/JSON value as produced by `json.loads` and handled by
the scripts (strings, ints, bools, None, lists, dicts). -/
inductive PyVal where
  | vStr (s : String)
  | vInt (n : Int)
  | vBool (b : Bool)
  | vNone
  | vList (xs : List PyVal)
  | vDict (d : List (String × PyVal))
  deriving Repr

/-- A Python dict of string keys, as the actor items are. -/
abbrev Item := List (String × PyVal)

/-- `d.get(k)`: first binding of `k` in the dict (keys are unique in Python,
an association list models it). -/
def dictGet (d : Item) (k : String) : Option PyVal :=
  match d.find? (fun p => p.1 == k) with
  | some p => some p.2
  | none => none

/-- Python truthiness of a value (`if value:`). -/
def pyTruthy : PyVal → Bool
  | .vStr s => s ≠ ""
  | .vInt n => n ≠ 0
  | .vBool b => b
  | .vNone => false
  | .vList xs => !xs.isEmpty
  | .vDict d => !d.isEmpty

/-- `str(value)` for the value kinds accepted by `isinstance(value, (str, int))`
(Python `bool` is a subclass of `int`). -/
def pyStrOf : PyVal → String
  | .vStr s => s
  | .vInt n => toString n
  | .vBool b => if b then "True" else "False"
  | _ => ""

/-- Whether `isinstance(value, (str, int))` holds (bool included, as in Python). -/
def isStrOrInt : PyVal → Bool
  | .vStr _ => true
  | .vInt _ => true
  | .vBool _ => true
  | _ => false

/-- Whether `isinstance(value, str)` holds. -/
def isStr : PyVal → Bool
  | .vStr _ => true
  | _ => false

/-- Python whitespace for `str.strip()` (ASCII fragment). -/
def isPyWs (c : Char) : Bool :=
  c = ' ' || c = Char.ofNat 9 || c = Char.ofNat 10 || c = Char.ofNat 13
    || c = Char.ofNat 11 || c = Char.ofNat 12

/-- Python `str.strip()`: drop leading and trailing whitespace. Structural so
the kernel can evaluate it on literals. -/
def pyStrip (s : String) : String :=
  String.mk (((s.data.dropWhile isPyWs).reverse.dropWhile isPyWs).reverse)

/-- Substring scan behind `pat in s`. -/
def containsChars : List Char → List Char → Bool
  | cs, pat =>
    if pat.isPrefixOf cs then true
    else
      match cs with
      | [] => false
      | _ :: t => containsChars t pat

/-- Substring test, `pat in s`. -/
def containsSub (s pat : String) : Bool :=
  containsChars s.data pat.data

/-- The splitting loop of Python `str.split(sep)` for a non-empty separator;
`fuel` only drives structural recursion and is chosen large enough. -/
def splitGo (sep : List Char) : Nat → List Char → List Char → List String → List String
  | 0, cs, cur, acc => acc ++ [String.mk (cur ++ cs)]
  | fuel + 1, cs, cur, acc =>
    if sep.isPrefixOf cs then splitGo sep fuel (cs.drop sep.length) [] (acc ++ [String.mk cur])
    else
      match cs with
      | [] => acc ++ [String.mk cur]
      | c :: rest => splitGo sep fuel rest (cur ++ [c]) acc

/-- Python `s.split(sep)` for a non-empty separator (checked against
CPython, including overlap and empty-piece cases). -/
def pySplit (s sep : String) : List String :=
  splitGo sep.data (s.data.length + 1) s.data [] []

/-- Python `sep.join(parts)`. -/
def pyJoin (sep : String) : List String → String
  | [] => ""
  | p :: ps => ps.foldl (fun acc q => acc ++ sep ++ q) p

/-- Lowercase hex digit. -/
def hexDigit (n : Nat) : Char :=
  if n < 10 then Char.ofNat (48 + n) else Char.ofNat (87 + n)

/-- Fixed-width lowercase hex of a 32-bit word, 8 digits. -/
def hex8 (w : Nat) : List Char :=
  (List.range 8).map (fun i => hexDigit ((w >>> (28 - 4 * i)) % 16))

/-- Fixed-width lowercase hex, 4 digits (for JSON unicode escapes). -/
def hex4 (w : Nat) : String :=
  String.mk ((List.range 4).map (fun i => hexDigit ((w >>> (12 - 4 * i)) % 16)))

/-- UTF-8 encoding of one code point. -/
def utf8Char (n : Nat) : List Nat :=
  if n < 0x80 then [n]
  else if n < 0x800 then [0xC0 + n / 64, 0x80 + n % 64]
  else if n < 0x10000 then [0xE0 + n / 4096, 0x80 + (n / 64) % 64, 0x80 + n % 64]
  else [0xF0 + n / 262144, 0x80 + (n / 4096) % 64, 0x80 + (n / 64) % 64, 0x80 + n % 64]

/-- UTF-8 encoding of a string as a byte list. -/
def utf8Bytes (s : String) : List Nat :=
  (s.data.map (fun c => utf8Char c.toNat)).flatten

/-- Truncation to 32 bits. -/
def w32 (n : Nat) : Nat := n % 4294967296

/-- 32-bit right rotation. -/
def rotr32 (x n : Nat) : Nat := w32 ((x >>> n) ||| (x <<< (32 - n)))

/-- SHA-256 big sigma 0. -/
def shaS0 (x : Nat) : Nat := (rotr32 x 2) ^^^ (rotr32 x 13) ^^^ (rotr32 x 22)

/-- SHA-256 big sigma 1. -/
def shaS1 (x : Nat) : Nat := (rotr32 x 6) ^^^ (rotr32 x 11) ^^^ (rotr32 x 25)

/-- SHA-256 small sigma 0. -/
def shas0 (x : Nat) : Nat := (rotr32 x 7) ^^^ (rotr32 x 18) ^^^ (x >>> 3)

/-- SHA-256 small sigma 1. -/
def shas1 (x : Nat) : Nat := (rotr32 x 17) ^^^ (rotr32 x 19) ^^^ (x >>> 10)

/-- Binary search for the integer `pow`-th root; `fuel` only drives
structural recursion and is chosen large enough for every call here. The
invariant is `lo ^ pow ≤ n < hi ^ pow`. -/
def rootGo (pow n : Nat) : Nat → Nat → Nat → Nat
  | 0, lo, _ => lo
  | fuel + 1, lo, hi =>
    let mid := (lo + hi) / 2
    if mid = lo then lo
    else if mid ^ pow ≤ n then rootGo pow n fuel mid hi
    else rootGo pow n fuel lo mid

/-- Integer `pow`-th root of `n` (the floor). -/
def introot (pow n : Nat) : Nat :=
  rootGo pow n 240 0 (n + 1)

/-- First 32 bits of the fractional part of the `pow`-th root of `p` — the
rule FIPS 180-4 uses to generate its round constants. -/
def fracRoot32 (pow p : Nat) : Nat :=
  w32 (introot pow (p * 2 ^ (32 * pow)))

/-- The first 64 primes, whose cube roots generate the SHA-256 round
constants. -/
def shaPrimes : List Nat :=
  [2, 3, 5, 7, 11, 13, 17, 19, 23, 29, 31, 37, 41, 43, 47, 53,
   59, 61, 67, 71, 73, 79, 83, 89, 97, 101, 103, 107, 109, 113, 127, 131,
   137, 139, 149, 151, 157, 163, 167, 173, 179, 181, 191, 193, 197, 199, 211, 223,
   227, 229, 233, 239, 241, 251, 257, 263, 269, 271, 277, 281, 283, 293, 307, 311]

/-- SHA-256 round constants (FIPS 180-4): the fractional cube roots of the
first 64 primes. -/
def shaK : List Nat :=
  shaPrimes.map (fracRoot32 3)

/-- SHA-256 running hash of eight 32-bit words. -/
structure Sha8 where
  a : Nat
  b : Nat
  c : Nat
  d : Nat
  e : Nat
  f : Nat
  g : Nat
  h : Nat

/-- SHA-256 initial hash values (FIPS 180-4): the fractional square roots of
the first 8 primes. -/
def shaH0 : Sha8 :=
  ⟨fracRoot32 2 2, fracRoot32 2 3, fracRoot32 2 5, fracRoot32 2 7,
   fracRoot32 2 11, fracRoot32 2 13, fracRoot32 2 17, fracRoot32 2 19⟩

/-- Big-endian 8-byte encoding of the 64-bit bit length. -/
def be64 (n : Nat) : List Nat :=
  (List.range 8).map (fun i => (n >>> (56 - 8 * i)) % 256)

/-- SHA-256 padding: append 0x80, zeros to 56 mod 64, then the bit length. -/
def shaPad (msg : List Nat) : List Nat :=
  msg ++ [0x80] ++ List.replicate ((119 - msg.length % 64) % 64) 0 ++ be64 (msg.length * 8)

/-- Split a byte list into 64-byte blocks. -/
def blocks64 (l : List Nat) : List (List Nat) :=
  if h : l = [] then []
  else l.take 64 :: blocks64 (l.drop 64)
termination_by l.length
decreasing_by
  have hl : 0 < l.length := List.length_pos.mpr h
  simp [List.length_drop]
  omega

/-- 16 big-endian 32-bit words of a 64-byte block. -/
def words16 : List Nat → List Nat
  | b0 :: b1 :: b2 :: b3 :: rest => (((b0 * 256 + b1) * 256 + b2) * 256 + b3) :: words16 rest
  | _ => []

/-- Extend the 16-word message schedule by the given number of words. -/
def extendW (ws : List Nat) : Nat → List Nat
  | 0 => ws
  | n + 1 =>
    let len := ws.length
    let next := w32 (ws.getD (len - 16) 0 + shas0 (ws.getD (len - 15) 0)
      + ws.getD (len - 7) 0 + shas1 (ws.getD (len - 2) 0))
    extendW (ws ++ [next]) n

/-- One SHA-256 compression round. -/
def shaRound (st : Sha8) (kw : Nat × Nat) : Sha8 :=
  let t1 := w32 (st.h + shaS1 st.e + ((st.e &&& st.f) ^^^ ((2 ^ 32 - 1 - st.e) &&& st.g))
    + kw.1 + kw.2)
  let t2 := w32 (shaS0 st.a + ((st.a &&& st.b) ^^^ (st.a &&& st.c) ^^^ (st.b &&& st.c)))
  ⟨w32 (t1 + t2), st.a, st.b, st.c, w32 (st.d + t1), st.e, st.f, st.g⟩

/-- Compress one 64-byte block into the running hash. -/
def shaBlock (st : Sha8) (block : List Nat) : Sha8 :=
  let ws := extendW (words16 block) 48
  let r := (shaK.zip ws).foldl shaRound st
  ⟨w32 (st.a + r.a), w32 (st.b + r.b), w32 (st.c + r.c), w32 (st.d + r.d),
   w32 (st.e + r.e), w32 (st.f + r.f), w32 (st.g + r.g), w32 (st.h + r.h)⟩

/-- `hashlib.sha256(msg).hexdigest()`: SHA-256 of a byte list as lowercase hex.
Checked against the FIPS test vectors for the empty string, for "abc" and for
"The quick brown fox jumps over the lazy dog". -/
def sha256hex (msg : List Nat) : String :=
  let st := (blocks64 (shaPad msg)).foldl shaBlock shaH0
  String.mk (([st.a, st.b, st.c, st.d, st.e, st.f, st.g, st.h].map hex8).flatten)

/-- JSON escape of one character, `ensure_ascii=True` as in `json.dumps`. -/
def jsonEscChar (c : Char) : String :=
  if c = '"' then "\\\""
  else if c = '\\' then "\\\\"
  else if c = Char.ofNat 10 then "\\n"
  else if c = Char.ofNat 9 then "\\t"
  else if c = Char.ofNat 13 then "\\r"
  else if c = Char.ofNat 8 then "\\b"
  else if c = Char.ofNat 12 then "\\f"
  else if c.toNat < 0x20 then "\\u" ++ hex4 c.toNat
  else if c.toNat < 0x7f then String.mk [c]
  else if c.toNat < 0x10000 then "\\u" ++ hex4 c.toNat
  else
    "\\u" ++ hex4 (0xD800 + (c.toNat - 0x10000) / 0x400)
      ++ "\\u" ++ hex4 (0xDC00 + (c.toNat - 0x10000) % 0x400)

/-- JSON string literal with escapes. -/
def jsonStr (s : String) : String :=
  "\"" ++ pyJoin "" (s.data.map jsonEscChar) ++ "\""

/-- Code-point lexicographic comparison of character lists. -/
def charListLt : List Char → List Char → Bool
  | [], [] => false
  | [], _ :: _ => true
  | _ :: _, [] => false
  | a :: as, b :: bs =>
    if a.toNat < b.toNat then true
    else if b.toNat < a.toNat then false
    else charListLt as bs

/-- Code-point lexicographic comparison of strings, Python `sorted` order. -/
def strLt (a b : String) : Bool :=
  charListLt a.data b.data

/-- Insertion into a key-sorted list of rendered dict entries. -/
def insertSorted (p : String × String) : List (String × String) → List (String × String)
  | [] => [p]
  | q :: qs => if strLt q.1 p.1 then q :: insertSorted p qs else p :: q :: qs

/-- Stable insertion sort by key in code-point order (`sort_keys=True`). -/
def sortByKey (l : List (String × String)) : List (String × String) :=
  l.foldr insertSorted []

mutual

/-- `json.dumps(v, sort_keys=True)` with the default separators; checked
against CPython output on nested documents. -/
def jsonDumps : PyVal → String
  | .vStr s => jsonStr s
  | .vInt n => toString n
  | .vBool b => if b then "true" else "false"
  | .vNone => "null"
  | .vList xs => "[" ++ pyJoin ", " (jsonDumpsList xs) ++ "]"
  | .vDict d =>
    "\x7b" ++ pyJoin ", "
      ((sortByKey (jsonDumpsPairs d)).map (fun p => jsonStr p.1 ++ ": " ++ p.2)) ++ "\x7d"

/-- Serialization of every element of a JSON array. -/
def jsonDumpsList : List PyVal → List String
  | [] => []
  | x :: xs => jsonDumps x :: jsonDumpsList xs

/-- Serialization of every value of a JSON object, keeping the keys. -/
def jsonDumpsPairs : List (String × PyVal) → List (String × String)
  | [] => []
  | p :: ps => (p.1, jsonDumps p.2) :: jsonDumpsPairs ps

end

namespace V1

/-- The single monitored profile URL of `instagram_to_discord.py`. -/
def PROFILE_URL : String := "https://www.instagram.com/HashtagUtd/"

/-- `_looks_like_post_url` from the root script. -/
def looks_like_post_url (value : String) : Bool :=
  containsSub value "/p/" || containsSub value "/reel/" || containsSub value "/tv/"

/-- The loop body of `item_url` over the URL-carrying keys. -/
def urlKeyScan (item : Item) : List String → Option String
  | [] => none
  | k :: ks =>
    match dictGet item k with
    | some (.vStr v) =>
      if pyStrip v ≠ "" && looks_like_post_url v then some (pyStrip v) else urlKeyScan item ks
    | _ => urlKeyScan item ks

/-- The loop body of `item_url` over the shortcode keys. -/
def codeKeyScan (item : Item) : List String → Option String
  | [] => none
  | k :: ks =>
    match dictGet item k with
    | some (.vStr c) => if pyStrip c ≠ "" then some (pyStrip c) else codeKeyScan item ks
    | _ => codeKeyScan item ks

/-- `item_url` from the root script. -/
def item_url (item : Item) : String :=
  match urlKeyScan item ["url", "postUrl", "permalink", "link"] with
  | some u => u
  | none =>
    match codeKeyScan item ["shortCode", "shortcode", "code"] with
    | some c => "https://www.instagram.com/p/" ++ c ++ "/"
    | none => PROFILE_URL

/-- The loop body of `item_caption` over the caption keys. -/
def captionKeyScan (item : Item) : List String → Option String
  | [] => none
  | k :: ks =>
    match dictGet item k with
    | some (.vStr v) => if pyStrip v ≠ "" then some (pyStrip v) else captionKeyScan item ks
    | _ => captionKeyScan item ks

/-- `item_caption` from the root script. -/
def item_caption (item : Item) : String :=
  match captionKeyScan item ["caption", "text", "title", "captionText"] with
  | some v => v
  | none => ""

/-- The loop body of `item_key` over the identifier keys: accepts `str` and
`int` values whose string form is non-blank. -/
def idKeyScan (item : Item) : List String → Option String
  | [] => none
  | k :: ks =>
    match dictGet item k with
    | some v =>
      if isStrOrInt v && pyStrip (pyStrOf v) ≠ "" then some (pyStrip (pyStrOf v))
      else idKeyScan item ks
    | none => idKeyScan item ks

end V1

/-- Decimal digit characters of a natural number, most significant first;
`fuel` only drives structural recursion. -/
def decDigitsGo : Nat → Nat → List Char
  | 0, _ => []
  | fuel + 1, n => if n = 0 then [] else decDigitsGo fuel (n / 10) ++ [Char.ofNat (48 + n % 10)]

/-- Decimal rendering of a natural number (Python `str(n)` / f-string
interpolation). -/
def natDecimal (n : Nat) : String :=
  if n = 0 then "0" else String.mk (decDigitsGo (n + 1) n)

/-- Last path component, `PurePath.name`. -/
def pathName (p : String) : String :=
  (pySplit p "/").getLastD ""

/-- `PurePath.suffix` of a file name: the part from the last dot, empty when
the only dot is leading or trailing (checked against CPython `pathlib`). -/
def nameSuffix (name : String) : String :=
  let segs := pySplit name "."
  if 2 ≤ segs.length ∧ segs.getLastD "" ≠ "" ∧ ¬(segs.length = 2 ∧ segs.headD "" = "")
  then "." ++ segs.getLastD ""
  else ""

/-- The file name with its `nameSuffix` removed, `PurePath.stem` plus any
earlier dots. -/
def nameStem (name : String) : String :=
  if nameSuffix name = "" then name
  else pyJoin "." ((pySplit name ".").dropLast)

/-- `PurePath.with_suffix`: replace the name's suffix (or append when there is
none), keeping the directory part. -/
def withSuffix (p suf : String) : String :=
  let segs := pySplit p "/"
  let newName := nameStem (segs.getLastD "") ++ suf
  pyJoin "/" (segs.dropLast ++ [newName])

/-- `urlparse(url).path`: strip fragment and query; with a `://` scheme also
strip scheme and host (checked against CPython `urllib.parse`). -/
def urlPath (url : String) : String :=
  let noFrag := (pySplit url "#").headD url
  let noQuery := (pySplit noFrag "?").headD noFrag
  if containsSub noQuery "://" then
    match pySplit noQuery "://" with
    | _ :: rest =>
      match pySplit (pyJoin "://" rest) "/" with
      | _host :: segs =>
        if segs.isEmpty then "" else "/" ++ pyJoin "/" segs
      | [] => ""
    | [] => ""
  else noQuery

/-- Modelled fragment of the stdlib `mimetypes.guess_extension` table, for the
content types this pipeline meets (checked against CPython). -/
def mimetypesGuess (ct : String) : Option String :=
  if ct = "image/jpeg" then some ".jpg"
  else if ct = "image/png" then some ".png"
  else if ct = "image/gif" then some ".gif"
  else if ct = "image/webp" then some ".webp"
  else if ct = "video/mp4" then some ".mp4"
  else if ct = "application/octet-stream" then some ".bin"
  else none

/-- Python exception kinds this embedding distinguishes. -/
inductive PyErr where
  | runtimeError
  | attributeError
  | unicodeDecodeError
  | valueError
  | systemExit
  deriving DecidableEq, Repr

/-- Python `a or b` over optional dict lookups: the first truthy value. -/
def pyOr (a b : Option PyVal) : Option PyVal :=
  match a with
  | some v => if pyTruthy v then some v else b
  | none => b

/-- File system model for the atomic-write analysis: paths mapped to full
text contents. -/
abbrev Fs := List (String × String)

/-- Content of a path, `none` when the file does not exist. -/
def fsGet (fs : Fs) (p : String) : Option String :=
  match fs.find? (fun q => q.1 == p) with
  | some q => some q.2
  | none => none

/-- Overwrite (or create) a file. -/
def fsSet (fs : Fs) (p : String) (c : String) : Fs :=
  (p, c) :: fs.filter (fun q => q.1 ≠ p)

/-- Delete a file if present. -/
def fsRemove (fs : Fs) (p : String) : Fs :=
  fs.filter (fun q => q.1 ≠ p)

/-- Observable intermediate states of a non-atomic `write_text`: the target
is truncated and then grows through every prefix of the new content. -/
def writeTextTrace (fs : Fs) (p : String) (c : String) : List Fs :=
  (List.range (c.data.length + 1)).map (fun i => fsSet fs p (String.mk (c.data.take i)))

/-- `Path.replace`: atomic rename, a single observable transition. -/
def renameFs (fs : Fs) (src dst : String) : Fs :=
  match fsGet fs src with
  | some c => fsSet (fsRemove fs src) dst c
  | none => fs

/-- Whether the target path holds either the old or the new content in every
listed intermediate state. -/
def targetStable (states : List Fs) (p : String) (oldC newC : Option String) : Bool :=
  states.all (fun fs => fsGet fs p == oldC || fsGet fs p == newC)

namespace V1

/-- `item_key` from the root script. `hashSeed` models the per-process hash
randomization seed available to any Python run (`PYTHONHASHSEED`); the code
deliberately derives its fallback from `hashlib.sha256` of the sorted JSON
serialization, so the seed is never consulted. -/
def item_key (hashSeed : Nat) (item : Item) : String :=
  match idKeyScan item ["id", "shortCode", "shortcode", "code", "pk"] with
  | some k => k
  | none =>
    let url := item_url item
    if url ≠ PROFILE_URL then url
    else sha256hex (utf8Bytes (jsonDumps (.vDict item)))

/-- Whether any identifier field of `item_key` yields a key. -/
def hasIdKey (item : Item) : Bool :=
  (idKeyScan item ["id", "shortCode", "shortcode", "code", "pk"]).isSome

/-- The loop of `extract_media` over `childPosts`: fill the missing image and
video slots from each dict child, stopping once both are present. -/
def extractChildLoop : Option String → Option String → List PyVal → Option String × Option String
  | img, vid, [] => (img, vid)
  | img, vid, c :: cs =>
    match c with
    | .vDict child =>
      let img' :=
        match img with
        | some i => some i
        | none =>
          match pyOr (dictGet child "displayUrl") (dictGet child "imageUrl") with
          | some (.vStr v) => if pyStrip v ≠ "" then some (pyStrip v) else none
          | _ => none
      let vid' :=
        match vid with
        | some v => some v
        | none =>
          match dictGet child "videoUrl" with
          | some (.vStr v) => if pyStrip v ≠ "" then some (pyStrip v) else none
          | _ => none
      if img'.isSome ∧ vid'.isSome then (img', vid') else extractChildLoop img' vid' cs
    | _ => extractChildLoop img vid cs

/-- The first-image-key loop of `extract_media`. -/
def imageKeyScan (item : Item) : List String → Option String
  | [] => none
  | k :: ks =>
    match dictGet item k with
    | some (.vStr v) => if pyStrip v ≠ "" then some (pyStrip v) else imageKeyScan item ks
    | _ => imageKeyScan item ks

/-- The first-video-key loop of `extract_media`. -/
def videoKeyScan (item : Item) : List String → Option String
  | [] => none
  | k :: ks =>
    match dictGet item k with
    | some (.vStr v) => if pyStrip v ≠ "" then some (pyStrip v) else videoKeyScan item ks
    | _ => videoKeyScan item ks

/-- `extract_media` from the root script: image keys scanned before video
keys, then the `childPosts` sidecar fills the still-missing slots. -/
def extract_media (item : Item) : Option String × Option String :=
  let image_url := imageKeyScan item ["displayUrl", "imageUrl", "thumbnailUrl"]
  let video_url := videoKeyScan item ["videoUrl", "video_url"]
  match dictGet item "childPosts" with
  | some (.vList sidecar) => extractChildLoop image_url video_url sidecar
  | _ => (image_url, video_url)

/-- The Discord payload built by the root script. -/
structure Payload where
  content : String
  embedTitle : String
  embedUrl : String
  description : Option String
  image : Option String
  video : Option String
  deriving Repr

/-- `build_payload` from the root script. The 1500-character caption cap with
the `...` marker is the claim-relevant part; `len` and slicing act on code
points, as in Python. -/
def build_payload (item : Item) : Payload :=
  let url := item_url item
  let caption0 := item_caption item
  let caption :=
    if 1500 < caption0.data.length then String.mk (caption0.data.take 1497) ++ "..." else caption0
  let media := extract_media item
  let content_lines :=
    ["ðŸ“¸ New Instagram post from **@HashtagUtd**", "Post: " ++ url]
      ++ (match media.2 with | some v => ["Video: " ++ v] | none => [])
  { content := pyJoin "\n" content_lines
    embedTitle := "New post from @HashtagUtd"
    embedUrl := url
    description := if caption ≠ "" then some caption else none
    image := media.1
    video := media.2 }

/-- Content of the JSON state file as the environment presents it: missing,
undecodable bytes, undecodable JSON, or a parsed JSON document. -/
inductive JsonFileContent where
  | missing
  | undecodable
  | unparsable
  | parsed (v : PyVal)

/-- `state_path.read_text` followed by `json.loads`, with the error the
Python code would raise. -/
def readAndParse : JsonFileContent → Except PyErr PyVal
  | .missing => .error .runtimeError
  | .undecodable => .error .unicodeDecodeError
  | .unparsable => .error .valueError
  | .parsed v => .ok v

/-- `load_state`: missing file gives an empty dict, and any read or parse
error is caught and also gives an empty dict. -/
def load_state : JsonFileContent → PyVal
  | .missing => .vDict []
  | fc =>
    match readAndParse fc with
    | .ok v => v
    | .error _ => .vDict []

/-- `state.get(k)`: succeeds only on dicts; on any other value Python raises
`AttributeError` (there is no `.get` on lists or scalars). -/
def pyGetMethod (v : PyVal) (k : String) : Except PyErr (Option PyVal) :=
  match v with
  | .vDict d => .ok (dictGet d k)
  | _ => .error .attributeError

/-- Observable trace of `save_state`: `mkdir` (not modelled: directories are
implicit), non-atomic `write_text` of the serialized state to the `.tmp`
sibling, then an atomic `replace` onto the target. The serialized text
(`json.dumps(state, ensure_ascii=False, indent=2)`) is passed in as `text`;
the atomicity property does not depend on its shape. -/
def save_state_trace (fs : Fs) (state_path : String) (text : String) : List Fs :=
  let temp_path := withSuffix state_path ".tmp"
  writeTextTrace fs temp_path text ++ [renameFs (fsSet fs temp_path text) temp_path state_path]

/-- `post_to_discord`: in dry-run mode only prints; otherwise the webhook
response status decides, any status outside [200, 300) raising
`RuntimeError`. The payload is built from the item either way. -/
def post_to_discord (dry_run : Bool) (status : Nat) (item : Item) : Except PyErr Unit :=
  let _payload := build_payload item
  if dry_run then .ok ()
  else if status < 200 ∨ 300 ≤ status then .error .runtimeError
  else .ok ()

/-- The `isinstance(..., str)` guard of `main`:
`state.get("last_seen_key") if isinstance(state.get("last_seen_key"), str) else None`. -/
def lastSeenFrom : Option PyVal → Option String
  | some (.vStr s) => some s
  | _ => none

/-- Result of one `main` invocation: the process result (`Except` for an
uncaught exception), the state file after the run, and how many times
`post_to_discord` was invoked. -/
structure RunOut where
  result : Except PyErr Nat
  fileAfter : JsonFileContent
  postCalls : Nat

/-- `main` from the root script, over an explicit environment: configuration
flags, the state file content, the fetch outcome, the webhook status for a
real post, and the current time. State is saved (via `save_state`) only
after `post_to_discord` returns, and the file then parses back to the
written dict. -/
def main (hashSeed : Nat) (hasToken hasWebhook dry_run force_latest : Bool)
    (fileBefore : JsonFileContent) (fetch : Except PyErr (Option Item))
    (postStatus : Nat) (now : Int) : RunOut :=
  if ¬hasToken then ⟨.ok 1, fileBefore, 0⟩
  else if ¬hasWebhook then ⟨.ok 1, fileBefore, 0⟩
  else
    let state := load_state fileBefore
    match pyGetMethod state "last_seen_key" with
    | .error e => ⟨.error e, fileBefore, 0⟩
    | .ok got =>
      let last_seen_key : Option String := lastSeenFrom got
      match fetch with
      | .error _ => ⟨.ok 1, fileBefore, 0⟩
      | .ok none => ⟨.ok 0, fileBefore, 0⟩
      | .ok (some latest_item) =>
        let latest_key := item_key hashSeed latest_item
        if ¬force_latest ∧ last_seen_key = some latest_key then ⟨.ok 0, fileBefore, 0⟩
        else
          match post_to_discord dry_run postStatus latest_item with
          | .error e => ⟨.error e, fileBefore, 1⟩
          | .ok _ =>
            ⟨.ok 0,
             .parsed (.vDict [("last_seen_key", .vStr latest_key), ("updated_at", .vInt now)]),
             1⟩

end V1

namespace V2

/-- `MediaItem` dataclass of the scripts variant. -/
structure MediaItem where
  url : String
  is_video : Bool
  deriving DecidableEq, Repr

/-- `InstagramPost` dataclass; `created_at` is kept as a POSIX timestamp,
the `datetime` formatting is not claim-relevant. -/
structure InstagramPost where
  shortcode : String
  username : String
  caption : String
  created_at : Int
  permalink : String
  media_items : List MediaItem
  deriving Repr

/-- The string behind a string-valued field (the actor returns URL fields as
strings; a non-string truthy value would make the Python crash later). -/
def asStr : PyVal → String
  | .vStr s => s
  | _ => ""

/-- Top-of-item media selection of `fetch_latest_post_via_apify`: the video
URL when the item is typed `Video` and has one, else the display URL when
present, else nothing. -/
def apifyTopMedia (item : Item) : List MediaItem :=
  let isVideoType :=
    match dictGet item "type" with
    | some (.vStr t) => t == "Video"
    | _ => false
  let videoUrl := (dictGet item "videoUrl").getD .vNone
  let displayUrl := (dictGet item "displayUrl").getD .vNone
  if isVideoType && pyTruthy videoUrl then [⟨asStr videoUrl, true⟩]
  else if pyTruthy displayUrl then [⟨asStr displayUrl, false⟩]
  else []

/-- One child of the `childPosts` loop: `videoUrl or displayUrl`, appended
when truthy, flagged video by the truthiness of `videoUrl`. -/
def childAsset (child : Item) : Option MediaItem :=
  let url := pyOr (dictGet child "videoUrl") (dictGet child "displayUrl")
  match url with
  | some u => if pyTruthy u then some ⟨asStr u, pyTruthy ((dictGet child "videoUrl").getD .vNone)⟩ else none
  | none => none

/-- The `childPosts` loop of `fetch_latest_post_via_apify`: dict children in
document order, non-dicts skipped. -/
def apifyChildMedia : List PyVal → List MediaItem
  | [] => []
  | .vDict child :: cs =>
    (match childAsset child with
     | some m => [m]
     | none => []) ++ apifyChildMedia cs
  | _ :: cs => apifyChildMedia cs

/-- The media list built by `fetch_latest_post_via_apify`: top-level asset
first, then the flattened `childPosts` (`item.get("childPosts") or []`). -/
def apifyMedia (item : Item) : List MediaItem :=
  apifyTopMedia item
    ++ (match dictGet item "childPosts" with
        | some (.vList cs) => apifyChildMedia cs
        | _ => [])

/-- One instaloader sidecar node (fields of `instaloader.Post` nodes). -/
structure IlNode where
  display_url : String
  video_url : Option String
  is_video : Bool

/-- `node.video_url or node.display_url` with the node's video flag, as in
`fetch_latest_post_via_instaloader`. -/
def instaloaderNodeMedia (node : IlNode) : MediaItem :=
  ⟨(match node.video_url with
    | some v => if v ≠ "" then v else node.display_url
    | none => node.display_url),
   node.is_video⟩

/-- Media of the instaloader provider: every sidecar node in order for a
`GraphSidecar`, else the single post node. -/
def instaloaderMedia (isSidecar : Bool) (nodes : List IlNode) (latest : IlNode) : List MediaItem :=
  if isSidecar then nodes.map instaloaderNodeMedia else [instaloaderNodeMedia latest]

/-- The environment's answer to one media `requests.get`: a network error
(any `RequestException`, including `raise_for_status`), or a streaming
response with an optional parsed `content-length` hint, an optional
`content-type`, and the streamed chunks (`iter_content`) as byte lists. -/
inductive MediaResp where
  | netErr
  | ok (sizeHint : Option Nat) (contentType : Option String) (chunks : List (List Nat))

/-- `_guess_extension`: URL path suffix first, else the declared content
type, else `.bin`. -/
def guess_extension (url : String) (content_type : Option String) : String :=
  let suffix := nameSuffix (pathName (urlPath url))
  if suffix ≠ "" then suffix
  else
    match content_type with
    | some ct =>
      match mimetypesGuess (pyStrip ((pySplit ct ";").headD ct)) with
      | some g => g
      | none => ".bin"
    | none => ".bin"

/-- On-disk byte contents of the run's temporary directory. -/
abbrev ByteFs := List (String × List Nat)

/-- Content of a path in the temporary directory. -/
def diskGet (disk : ByteFs) (p : String) : Option (List Nat) :=
  match disk.find? (fun q => q.1 == p) with
  | some q => some q.2
  | none => none

/-- Create or overwrite a file. -/
def diskSet (disk : ByteFs) (p : String) (c : List Nat) : ByteFs :=
  (p, c) :: disk.filter (fun q => q.1 ≠ p)

/-- `Path.unlink(missing_ok=True)`. -/
def diskRemove (disk : ByteFs) (p : String) : ByteFs :=
  disk.filter (fun q => q.1 ≠ p)

/-- The streaming loop of `_download_media`: each non-empty chunk is written
and counted; exceeding `maxBytes` aborts with the partial content written so
far (the `error` case), completing returns the full content (the `ok`
case, reached by the `for ... else` clause). -/
def streamChunks (maxBytes : Nat) : List (List Nat) → Nat → List Nat → Except (List Nat) (List Nat)
  | [], _, acc => .ok acc
  | c :: cs, written, acc =>
    if c.isEmpty then streamChunks maxBytes cs written acc
    else
      let written' := written + c.length
      let acc' := acc ++ c
      if maxBytes < written' then .error acc' else streamChunks maxBytes cs written' acc'

/-- `if size and int(size) > self.max_download_bytes`: whether the
content-length hint already exceeds the limit. -/
def hintExceeds (maxBytes : Nat) : Option Nat → Bool
  | some n => decide (maxBytes < n)
  | none => false

/-- The per-item body of `_download_media`'s loop: skip on network error or
an over-limit size hint; otherwise stream to `media_{idx+1}{ext}`, deleting
the partial file when the running total exceeds the limit. Returns the disk
after the item and the saved path with its content when the item completed. -/
def processItem (maxBytes idx : Nat) (disk : ByteFs) (media : MediaItem) (resp : MediaResp) :
    ByteFs × Option (String × List Nat) :=
  match resp with
  | .netErr => (disk, none)
  | .ok sizeHint contentType chunks =>
    if hintExceeds maxBytes sizeHint then (disk, none)
    else
      let fp := "media_" ++ natDecimal (idx + 1) ++ guess_extension media.url contentType
      match streamChunks maxBytes chunks 0 [] with
      | .error partialContent => (diskRemove (diskSet disk fp partialContent) fp, none)
      | .ok content => (diskSet disk fp content, some (fp, content))

/-- The loop of `_download_media` over the enumerated media items, stopping
once `maxFiles` files are saved. -/
def downloadLoop (maxFiles maxBytes : Nat) :
    List (MediaItem × MediaResp) → Nat → List (String × List Nat) → ByteFs →
    List (String × List Nat) × ByteFs
  | [], _, files, disk => (files, disk)
  | (media, resp) :: rest, idx, files, disk =>
    if maxFiles ≤ files.length then (files, disk)
    else
      match processItem maxBytes idx disk media resp with
      | (disk', some saved) => downloadLoop maxFiles maxBytes rest (idx + 1) (files ++ [saved]) disk'
      | (disk', none) => downloadLoop maxFiles maxBytes rest (idx + 1) files disk'

/-- `_download_media` over the items paired with the environment's responses:
the saved files (paths with their on-disk contents) and the temporary
directory contents after the loop. -/
def download_media (maxFiles maxBytes : Nat) (items : List (MediaItem × MediaResp)) :
    List (String × List Nat) × ByteFs :=
  downloadLoop maxFiles maxBytes items 0 [] []

/-- A webhook response: its status and the parsed numeric `Retry-After`
header (`none` when absent or blank, in which case the code sleeps the fixed
2-second fallback). -/
structure HttpResp where
  status : Nat
  retryAfter : Option ℚ
  deriving Repr

/-- Outcome of `_post_with_retries`: the response it returns, how many
requests it issued, and the sleeps it performed in order. -/
structure RetryOutcome where
  resp : HttpResp
  requests : Nat
  sleeps : List ℚ
  deriving Repr

/-- The `for attempt in range(1, 4)` loop of `_post_with_retries`:
`remaining` counts the iterations left. On 429 sleep `Retry-After` (or 2.0)
and continue; on 5xx sleep `1.5 * attempt` and continue; otherwise return
the response. When the loop exhausts, the last response is returned. The
base case is unreachable from `post_with_retries`. -/
def retryGo (resps : Nat → HttpResp) (attempt : Nat) (acc : List ℚ) : Nat → RetryOutcome
  | 0 => ⟨resps attempt, attempt, acc⟩
  | remaining + 1 =>
    let resp := resps attempt
    if resp.status == 429 then
      let sleep_s := resp.retryAfter.getD 2
      if remaining = 0 then ⟨resp, attempt, acc ++ [sleep_s]⟩
      else retryGo resps (attempt + 1) (acc ++ [sleep_s]) remaining
    else if 500 ≤ resp.status ∧ resp.status < 600 then
      let sleep_s := (3 / 2 : ℚ) * attempt
      if remaining = 0 then ⟨resp, attempt, acc ++ [sleep_s]⟩
      else retryGo resps (attempt + 1) (acc ++ [sleep_s]) remaining
    else ⟨resp, attempt, acc⟩

/-- `_post_with_retries`: at most 3 attempts, numbered from 1. -/
def post_with_retries (resps : Nat → HttpResp) : RetryOutcome :=
  retryGo resps 1 [] 3

/-- The description `_send_to_discord` puts in the embed: the first 3900
code points of the caption, or a placeholder when it is empty. -/
def send_desc (caption : String) : String :=
  if caption ≠ "" then String.mk (caption.data.take 3900) else "No caption provided."

/-- The embed built by `_send_to_discord` (timestamp field omitted: pure
`datetime` formatting). -/
structure Embed where
  title : String
  url : String
  description : String
  footer : String
  image : Option String
  deriving Repr

/-- The embed construction of `_send_to_discord`, with the remote-image
fallback when nothing was downloaded. -/
def build_embed (post : InstagramPost) (attachments : List (String × List Nat)) : Embed :=
  { title := "New Instagram post from @" ++ post.username
    url := post.permalink
    description := send_desc post.caption
    footer := "Shortcode: " ++ post.shortcode
    image :=
      if attachments.isEmpty then (post.media_items.find? (fun m => !m.is_video)).map (fun m => m.url)
      else none }

/-- Whether `_send_to_discord` raises after `_post_with_retries` returns:
`if resp.status_code >= 300: raise RuntimeError(...)`. -/
def deliveryFails (resp : HttpResp) : Bool :=
  300 ≤ resp.status

/-- Content of the plain-text shortcode state file. -/
inductive TextFileContent where
  | missing
  | undecodable
  | text (s : String)
  deriving Repr

/-- `_load_last_shortcode`: `None` for a missing file, the stripped content
or `None` when blank; `read_text` on undecodable bytes raises
`UnicodeDecodeError`, which nothing catches. -/
def load_last_shortcode : TextFileContent → Except PyErr (Option String)
  | .missing => .ok none
  | .undecodable => .error .unicodeDecodeError
  | .text s => .ok (if pyStrip s = "" then none else some (pyStrip s))

/-- Observable trace of `_save_last_shortcode`: a single non-atomic
`write_text` straight onto the state file. -/
def save_last_shortcode_trace (fs : Fs) (state_file : String) (shortcode : String) : List Fs :=
  writeTextTrace fs state_file shortcode

/-- Configuration of one `run`. -/
structure RunCfg where
  force_post : Bool
  dry_run : Bool
  skip_on_fetch_errors : Bool
  max_media_files : Nat
  max_download_bytes : Nat

/-- Environment of one `run`: the provider-chain outcome, the media-download
responses by item index, and the webhook responses by attempt. -/
structure RunEnv where
  fetch : Except PyErr InstagramPost
  mediaResps : Nat → MediaResp
  webhookResps : Nat → HttpResp

/-- Result of one `run`: the return value or uncaught exception, the state
file after, and how many times `_send_to_discord` was invoked. -/
structure RunOut where
  result : Except PyErr Nat
  stateAfter : TextFileContent
  sendCalls : Nat

/-- `InstagramToDiscordBridge.run`: fetch (tolerating errors when
configured), load the last shortcode, skip when unchanged and not forced,
handle dry-run (which saves state without sending), else download media,
send, and save state only after a successful send. -/
def run (cfg : RunCfg) (stateBefore : TextFileContent) (env : RunEnv) : RunOut :=
  match env.fetch with
  | .error e => if cfg.skip_on_fetch_errors then ⟨.ok 0, stateBefore, 0⟩ else ⟨.error e, stateBefore, 0⟩
  | .ok latest =>
    match load_last_shortcode stateBefore with
    | .error e => ⟨.error e, stateBefore, 0⟩
    | .ok last =>
      if ¬cfg.force_post ∧ last = some latest.shortcode then ⟨.ok 0, stateBefore, 0⟩
      else if cfg.dry_run then ⟨.ok 0, .text latest.shortcode, 0⟩
      else
        let items := (List.range latest.media_items.length).map
          (fun i => (latest.media_items.getD i ⟨"", false⟩, env.mediaResps i))
        let attachments := (download_media cfg.max_media_files cfg.max_download_bytes items).1
        let _embed := build_embed latest attachments
        let finalResp := (post_with_retries env.webhookResps).resp
        if deliveryFails finalResp then ⟨.error .runtimeError, stateBefore, 1⟩
        else ⟨.ok 0, .text latest.shortcode, 1⟩

/-- The argparse-level inputs `main` consumes. -/
structure Args where
  discord_webhook_url : Option String
  force_post : Bool
  dry_run : Bool
  max_media_files : Int
  max_download_mb : Int
  skip_on_fetch_errors : Bool
  fetch_timeout_seconds : Int
  provider_order : String

/-- The effective bridge configuration `main` constructs. -/
structure BridgeCfg where
  force_post : Bool
  dry_run : Bool
  max_media_files : Int
  max_download_bytes : Int
  skip_on_fetch_errors : Bool
  fetch_timeout_seconds : Int
  provider_order : List String
  deriving DecidableEq, Repr

/-- `main` up to the bridge construction: webhook requirement, provider-order
validation, and the clamped `InstagramToDiscordBridge(...)` arguments
(`max(1, ...)`, `max(10, ...)`, and the constructor's `* 1024 * 1024`). -/
def main (args : Args) : Except PyErr BridgeCfg :=
  if args.discord_webhook_url = none ∧ ¬args.dry_run then .error .systemExit
  else
    let providers := ((pySplit args.provider_order ",").map pyStrip).filter (fun x => x ≠ "")
    if providers.all (fun p => p == "apify" || p == "instaloader") then
      .ok
        { force_post := args.force_post
          dry_run := args.dry_run
          max_media_files := max 1 args.max_media_files
          max_download_bytes := max 1 args.max_download_mb * 1024 * 1024
          skip_on_fetch_errors := args.skip_on_fetch_errors
          fetch_timeout_seconds := max 10 args.fetch_timeout_seconds
          provider_order := providers }
    else .error .systemExit

end V2

/-! ## Claim theorems -/

/-- C10: the bridge is always constructed with clamped configuration: when
`main` reaches the construction, the effective max media count is at least 1,
the effective download limit is at least 1 MB, and the effective fetch
timeout is at least 10 seconds; supplied values below the floors are raised
to the floor rather than rejected. -/
theorem bridge_config_clamped (args : V2.Args) (cfg : V2.BridgeCfg)
    (h : V2.main args = .ok cfg) :
    1 ≤ cfg.max_media_files ∧ 1024 * 1024 ≤ cfg.max_download_bytes ∧
    10 ≤ cfg.fetch_timeout_seconds ∧
    cfg.max_media_files = max 1 args.max_media_files ∧
    cfg.max_download_bytes = max 1 args.max_download_mb * 1024 * 1024 ∧
    cfg.fetch_timeout_seconds = max 10 args.fetch_timeout_seconds := by
  unfold V2.main at h
  split at h
  · exact Except.noConfusion h
  · dsimp only at h
    split at h
    · have hc : cfg = _ := (Except.ok.inj h).symm
      subst hc
      refine ⟨le_max_left 1 _, ?_, le_max_left 10 _, rfl, rfl, rfl⟩
      show (1024 * 1024 : Int) ≤ max 1 args.max_download_mb * 1024 * 1024
      have h1 : (1 : Int) ≤ max 1 args.max_download_mb := le_max_left 1 _
      nlinarith
    · exact Except.noConfusion h

deriving instance DecidableEq for Except

/-- C10 witness: a below-floor configuration is raised to the floors. -/
theorem bridge_config_clamped_witness :
    V2.main ⟨some "https://discord/wh", false, false, -5, 0, true, 3, "apify,instaloader"⟩ =
      .ok ⟨false, false, 1, 1048576, true, 10, ["apify", "instaloader"]⟩ ∧
    (1 : Int) ≤ 1 ∧ (1024 * 1024 : Int) ≤ 1048576 ∧ (10 : Int) ≤ 10 := by
  have h : V2.main ⟨some "https://discord/wh", false, false, -5, 0, true, 3, "apify,instaloader"⟩ =
      .ok ⟨false, false, 1, 1048576, true, 10, ["apify", "instaloader"]⟩ := by decide
  have h2 := bridge_config_clamped
    ⟨some "https://discord/wh", false, false, -5, 0, true, 3, "apify,instaloader"⟩
    ⟨false, false, 1, 1048576, true, 10, ["apify", "instaloader"]⟩ h
  exact ⟨h, h2.1, h2.2.1, h2.2.2.1⟩

/-- C2: with a fetched post whose identifier equals the persisted last-seen
identifier and force mode off, both variants skip publishing (zero publish
calls), leave the state unchanged and return success (0); with differing
identifiers or force mode on, the run proceeds to publishing: the publish
routine is invoked (for the scripts variant, when dry-run is off —
its dry-run mode previews instead of publishing, per the state machine's
dry-run carve-out). -/
theorem dedupe_decision
    (cfg : V2.RunCfg) (st : V2.TextFileContent) (env : V2.RunEnv) (latest : V2.InstagramPost)
    (hashSeed : Nat) (dry2 force2 : Bool) (fileB : V1.JsonFileContent) (item : Item)
    (postStatus : Nat) (now : Int)
    (hfetch : env.fetch = .ok latest) :
    (cfg.force_post = false → V2.load_last_shortcode st = .ok (some latest.shortcode) →
      V2.run cfg st env = ⟨.ok 0, st, 0⟩)
    ∧
    (∀ last, V2.load_last_shortcode st = .ok last →
      (cfg.force_post = true ∨ last ≠ some latest.shortcode) →
      cfg.dry_run = false →
      (V2.run cfg st env).sendCalls = 1)
    ∧
    (V1.pyGetMethod (V1.load_state fileB) "last_seen_key" =
        .ok (some (.vStr (V1.item_key hashSeed item))) →
      V1.main hashSeed true true dry2 false fileB (.ok (some item)) postStatus now =
        ⟨.ok 0, fileB, 0⟩)
    ∧
    (∀ got, V1.pyGetMethod (V1.load_state fileB) "last_seen_key" = .ok got →
      (force2 = true ∨ V1.lastSeenFrom got ≠ some (V1.item_key hashSeed item)) →
      (V1.main hashSeed true true dry2 force2 fileB (.ok (some item)) postStatus now).postCalls
        = 1) := by
  refine ⟨?_, ?_, ?_, ?_⟩
  · intro hforce hload
    unfold V2.run
    rw [hfetch, hload]
    simp [hforce]
  · intro last hload hdiff hdry
    unfold V2.run
    rw [hfetch, hload]
    dsimp only
    have hcond : ¬(¬cfg.force_post = true ∧ last = some latest.shortcode) := by
      rcases hdiff with h | h
      · simp [h]
      · simp [h]
    rw [if_neg hcond, hdry]
    simp only [Bool.false_eq_true, if_false]
    split <;> rfl
  · intro hget
    unfold V1.main
    dsimp only
    rw [hget]
    dsimp only
    simp [V1.lastSeenFrom]
  · intro got hget hdiff
    unfold V1.main
    dsimp only
    rw [hget]
    dsimp only
    have hskip : ¬(force2 = false ∧ V1.lastSeenFrom got = some (V1.item_key hashSeed item)) := by
      rcases hdiff with h | h
      · simp [h]
      · intro hc
        exact h hc.2
    rcases hpost : V1.post_to_discord dry2 postStatus item with e | u <;> simp [hskip, hpost]

/-- C2 witness: with last-seen "abc" equal to the fetched shortcode the run
skips with success and no sends; with last-seen "xyz" it sends; the V1
variant likewise skips on a matching key and posts on a differing one. -/
theorem dedupe_decision_witness :
    V2.run ⟨false, false, true, 4, 8388608⟩ (.text "abc")
        ⟨.ok ⟨"abc", "HashtagUtd", "", 0, "https://www.instagram.com/p/abc/", []⟩,
         fun _ => .netErr, fun _ => ⟨200, none⟩⟩ =
      ⟨.ok 0, .text "abc", 0⟩ ∧
    (V2.run ⟨false, false, true, 4, 8388608⟩ (.text "xyz")
        ⟨.ok ⟨"abc", "HashtagUtd", "", 0, "https://www.instagram.com/p/abc/", []⟩,
         fun _ => .netErr, fun _ => ⟨200, none⟩⟩).sendCalls = 1 ∧
    V1.main 0 true true false false (.parsed (.vDict [("last_seen_key", .vStr "k1")]))
        (.ok (some [("id", .vStr "k1")])) 204 0 =
      ⟨.ok 0, .parsed (.vDict [("last_seen_key", .vStr "k1")]), 0⟩ ∧
    (V1.main 0 true true false false (.parsed (.vDict [("last_seen_key", .vStr "other")]))
        (.ok (some [("id", .vStr "k1")])) 204 0).postCalls = 1 := by
  refine ⟨?_, ?_, ?_, ?_⟩
  · exact (dedupe_decision ⟨false, false, true, 4, 8388608⟩ (.text "abc")
      ⟨.ok ⟨"abc", "HashtagUtd", "", 0, "https://www.instagram.com/p/abc/", []⟩,
       fun _ => .netErr, fun _ => ⟨200, none⟩⟩
      ⟨"abc", "HashtagUtd", "", 0, "https://www.instagram.com/p/abc/", []⟩
      0 false false (.parsed (.vDict [("last_seen_key", .vStr "k1")]))
      [("id", .vStr "k1")] 204 0 rfl).1 rfl rfl
  · exact (dedupe_decision ⟨false, false, true, 4, 8388608⟩ (.text "xyz")
      ⟨.ok ⟨"abc", "HashtagUtd", "", 0, "https://www.instagram.com/p/abc/", []⟩,
       fun _ => .netErr, fun _ => ⟨200, none⟩⟩
      ⟨"abc", "HashtagUtd", "", 0, "https://www.instagram.com/p/abc/", []⟩
      0 false false (.parsed (.vDict [("last_seen_key", .vStr "k1")]))
      [("id", .vStr "k1")] 204 0 rfl).2.1 (some "xyz") rfl (by decide) rfl
  · exact (dedupe_decision ⟨false, false, true, 4, 8388608⟩ (.text "abc")
      ⟨.ok ⟨"abc", "HashtagUtd", "", 0, "https://www.instagram.com/p/abc/", []⟩,
       fun _ => .netErr, fun _ => ⟨200, none⟩⟩
      ⟨"abc", "HashtagUtd", "", 0, "https://www.instagram.com/p/abc/", []⟩
      0 false false (.parsed (.vDict [("last_seen_key", .vStr "k1")]))
      [("id", .vStr "k1")] 204 0 rfl).2.2.1 rfl
  · exact (dedupe_decision ⟨false, false, true, 4, 8388608⟩ (.text "abc")
      ⟨.ok ⟨"abc", "HashtagUtd", "", 0, "https://www.instagram.com/p/abc/", []⟩,
       fun _ => .netErr, fun _ => ⟨200, none⟩⟩
      ⟨"abc", "HashtagUtd", "", 0, "https://www.instagram.com/p/abc/", []⟩
      0 false false (.parsed (.vDict [("last_seen_key", .vStr "other")]))
      [("id", .vStr "k1")] 204 0 rfl).2.2.2 (some (.vStr "other")) rfl (by decide)

/-- C1: whenever publishing is attempted and the webhook delivery fails
(raises), the persisted state is not updated: in both variants the run ends
with the uncaught `RuntimeError` and the state file still holds its
pre-run content, so the next invocation compares against the same
last-seen identifier. -/
theorem publish_failure_preserves_state
    (cfg : V2.RunCfg) (st : V2.TextFileContent) (env : V2.RunEnv) (latest : V2.InstagramPost)
    (last : Option String) (hashSeed : Nat) (force2 : Bool) (fileB : V1.JsonFileContent)
    (item : Item) (got : Option PyVal) (postStatus : Nat) (now : Int)
    (hfetch : env.fetch = .ok latest)
    (hload : V2.load_last_shortcode st = .ok last)
    (hdry : cfg.dry_run = false)
    (hproceed : cfg.force_post = true ∨ last ≠ some latest.shortcode)
    (hfail : V2.deliveryFails (V2.post_with_retries env.webhookResps).resp = true)
    (hget : V1.pyGetMethod (V1.load_state fileB) "last_seen_key" = .ok got)
    (hproceed1 : force2 = true ∨ V1.lastSeenFrom got ≠ some (V1.item_key hashSeed item))
    (hfail1 : postStatus < 200 ∨ 300 ≤ postStatus) :
    V2.run cfg st env = ⟨.error .runtimeError, st, 1⟩ ∧
    V1.main hashSeed true true false force2 fileB (.ok (some item)) postStatus now =
      ⟨.error .runtimeError, fileB, 1⟩ := by
  constructor
  · unfold V2.run
    rw [hfetch, hload]
    dsimp only
    have hcond : ¬(¬cfg.force_post = true ∧ last = some latest.shortcode) := by
      rcases hproceed with h | h
      · simp [h]
      · simp [h]
    rw [if_neg hcond, hdry]
    simp only [Bool.false_eq_true, if_false]
    rw [if_pos hfail]
  · have hpost : V1.post_to_discord false postStatus item = .error .runtimeError := by
      unfold V1.post_to_discord
      simp [hfail1]
    unfold V1.main
    dsimp only
    rw [hget]
    dsimp only
    have hskip : ¬(force2 = false ∧ V1.lastSeenFrom got = some (V1.item_key hashSeed item)) := by
      rcases hproceed1 with h | h
      · simp [h]
      · intro hc
        exact h hc.2
    simp [hskip, hpost]

/-- C1 witness: a 404 webhook response (and a non-2xx status for the V1
variant) leaves the previous state file contents in place. -/
theorem publish_failure_preserves_state_witness :
    V2.run ⟨false, false, true, 4, 8388608⟩ (.text "old")
        ⟨.ok ⟨"new", "HashtagUtd", "cap", 0, "https://www.instagram.com/p/new/", []⟩,
         fun _ => .netErr, fun _ => ⟨404, none⟩⟩ =
      ⟨.error .runtimeError, .text "old", 1⟩ ∧
    V1.main 0 true true false false (.parsed (.vDict [("last_seen_key", .vStr "old")]))
        (.ok (some [("id", .vStr "new")])) 404 7 =
      ⟨.error .runtimeError, .parsed (.vDict [("last_seen_key", .vStr "old")]), 1⟩ :=
  publish_failure_preserves_state
    ⟨false, false, true, 4, 8388608⟩ (.text "old")
    ⟨.ok ⟨"new", "HashtagUtd", "cap", 0, "https://www.instagram.com/p/new/", []⟩,
     fun _ => .netErr, fun _ => ⟨404, none⟩⟩
    ⟨"new", "HashtagUtd", "cap", 0, "https://www.instagram.com/p/new/", []⟩
    (some "old") 0 false (.parsed (.vDict [("last_seen_key", .vStr "old")]))
    [("id", .vStr "new")] (some (.vStr "old")) 404 7
    rfl rfl rfl (by decide) (by decide) rfl (by decide) (by decide)

/-- C5 counterexample: `_load_last_shortcode` on a state file with
undecodable bytes raises `UnicodeDecodeError` (nothing catches it), instead
of returning an empty state. -/
theorem load_shortcode_decode_error_cex :
    V2.load_last_shortcode .undecodable = .error .unicodeDecodeError ∧
    ∀ r, V2.load_last_shortcode .undecodable ≠ .ok r := by
  exact ⟨rfl, fun r h => Except.noConfusion h⟩

/-- C5 amended: the JSON-variant `load_state` returns the empty state for a
missing, undecodable or unparsable file and otherwise the parsed document,
never raising; the scripts-variant `_load_last_shortcode` returns absent for
a missing file and, for decodable content, the stripped shortcode (absent
when blank) without error — only undecodable bytes raise. -/
theorem load_state_tolerant :
    V1.load_state .missing = .vDict [] ∧
    V1.load_state .undecodable = .vDict [] ∧
    V1.load_state .unparsable = .vDict [] ∧
    (∀ v, V1.load_state (.parsed v) = v) ∧
    V2.load_last_shortcode .missing = .ok none ∧
    (∀ s, V2.load_last_shortcode (.text s) =
      .ok (if pyStrip s = "" then none else some (pyStrip s))) := by
  exact ⟨rfl, rfl, rfl, fun v => rfl, rfl, fun s => rfl⟩

/-- Looking a key up after setting a different key is unchanged. -/
theorem find_key_filter (fs : Fs) (p q : String) (h : q ≠ p) :
    (fs.filter (fun e => e.1 ≠ q)).find? (fun e => e.1 == p) = fs.find? (fun e => e.1 == p) := by
  induction fs with
  | nil => rfl
  | cons e t ih =>
    rw [List.filter_cons]
    by_cases he : e.1 = q
    · have hfilter : decide (e.1 ≠ q) = false := by simp [he]
      rw [hfilter]
      have hep : ¬(e.1 == p) = true := by
        simp only [he, beq_iff_eq]
        exact fun hc => h hc
      rw [if_neg (by simp), ih, List.find?_cons_of_neg t hep]
    · have hfilter : decide (e.1 ≠ q) = true := by simp [he]
      rw [hfilter, if_pos rfl]
      by_cases hp : e.1 = p
      · rw [List.find?_cons_of_pos _ (by simp [hp]), List.find?_cons_of_pos t (by simp [hp])]
      · rw [List.find?_cons_of_neg _ (by simp [hp]), List.find?_cons_of_neg t (by simp [hp]), ih]

/-- Reading the path just written. -/
theorem fsGet_fsSet_self (fs : Fs) (p c : String) : fsGet (fsSet fs p c) p = some c := by
  simp [fsGet, fsSet, List.find?]

/-- Writing one path does not change another path's content. -/
theorem fsGet_fsSet_ne (fs : Fs) (p q c : String) (h : q ≠ p) :
    fsGet (fsSet fs q c) p = fsGet fs p := by
  have hqp : (q == p) = false := beq_eq_false_iff_ne.mpr h
  unfold fsGet fsSet
  rw [List.find?_cons_of_neg _ (by simp [hqp]), find_key_filter fs p q h]

/-- After a rename the destination holds the source's content. -/
theorem fsGet_rename_dst (fs : Fs) (src dst c : String) (h : fsGet fs src = some c) :
    fsGet (renameFs fs src dst) dst = some c := by
  simp [renameFs, h, fsGet_fsSet_self]

/-- C4 counterexample: `_save_last_shortcode` writes the state file in place
(no temporary sibling, no rename), so with previous content "OLD" and new
shortcode "NEW" the file passes through truncated states (here "", "N",
"NE") that are neither the old nor the new content. -/
theorem save_shortcode_not_atomic_cex :
    targetStable
        (V2.save_last_shortcode_trace [(".cache/instagram_last_post.txt", "OLD")]
          ".cache/instagram_last_post.txt" "NEW")
        ".cache/instagram_last_post.txt" (some "OLD") (some "NEW") = false ∧
    fsGet
        ((V2.save_last_shortcode_trace [(".cache/instagram_last_post.txt", "OLD")]
          ".cache/instagram_last_post.txt" "NEW").headD [])
        ".cache/instagram_last_post.txt" = some "" := by
  exact ⟨by decide, by decide⟩

/-- C4 amended: the JSON-variant `save_state` is atomic — it writes the
serialized state to the `.tmp` sibling and renames it over the target, so
every observable intermediate state of the target is either the full old
content or the full new content — whereas `_save_last_shortcode` writes the
file in place and can expose a partially written file. -/
theorem save_state_atomic (fs : Fs) (p text : String) (h : withSuffix p ".tmp" ≠ p) :
    targetStable (V1.save_state_trace fs p text) p (fsGet fs p) (some text) = true := by
  unfold V1.save_state_trace targetStable writeTextTrace
  rw [List.all_append]
  have h1 : ∀ fs' ∈ (List.range (text.data.length + 1)).map
      (fun i => fsSet fs (withSuffix p ".tmp") (String.mk (text.data.take i))),
      (fsGet fs' p == fsGet fs p || fsGet fs' p == some text) = true := by
    intro fs' hmem
    rcases List.mem_map.mp hmem with ⟨i, _, rfl⟩
    rw [fsGet_fsSet_ne fs p (withSuffix p ".tmp") _ h]
    simp
  have h2 : fsGet (renameFs (fsSet fs (withSuffix p ".tmp") text) (withSuffix p ".tmp") p) p
      = some text :=
    fsGet_rename_dst _ _ _ _ (fsGet_fsSet_self fs (withSuffix p ".tmp") text)
  rw [Bool.and_eq_true, List.all_eq_true, List.all_eq_true]
  refine ⟨fun fs' hmem => h1 fs' hmem, fun fs' hmem => ?_⟩
  have : fs' = renameFs (fsSet fs (withSuffix p ".tmp") text) (withSuffix p ".tmp") p := by
    simpa using hmem
  subst this
  rw [h2]
  simp

/-- C4 witness: the default state path writes atomically through its `.tmp`
sibling. -/
theorem save_state_atomic_witness :
    withSuffix ".state/ig_state.json" ".tmp" ≠ ".state/ig_state.json" ∧
    targetStable
        (V1.save_state_trace [(".state/ig_state.json", "OLD")] ".state/ig_state.json" "NEW")
        ".state/ig_state.json" (fsGet [(".state/ig_state.json", "OLD")] ".state/ig_state.json")
        (some "NEW") = true :=
  ⟨by decide,
   save_state_atomic [(".state/ig_state.json", "OLD")] ".state/ig_state.json" "NEW" (by decide)⟩

/-- Stripping a repeated non-whitespace character changes nothing. -/
theorem pyStrip_replicate (n : Nat) (c : Char) (hc : isPyWs c = false) :
    pyStrip (String.mk (List.replicate n c)) = String.mk (List.replicate n c) := by
  have key : ∀ m, List.dropWhile isPyWs (List.replicate m c) = List.replicate m c := by
    intro m
    cases m with
    | zero => rfl
    | succ k =>
      rw [List.replicate_succ]
      simp [List.dropWhile, hc]
  unfold pyStrip
  show String.mk ((((List.replicate n c).dropWhile isPyWs).reverse.dropWhile isPyWs).reverse) = _
  rw [key, List.reverse_replicate, key, List.reverse_replicate]

/-- A repeated character makes a non-empty string. -/
theorem mk_replicate_ne_empty (n : Nat) (c : Char) (hn : n ≠ 0) :
    String.mk (List.replicate n c) ≠ "" := by
  intro h
  rw [String.ext_iff] at h
  have hlen := congrArg List.length h
  rw [List.length_replicate] at hlen
  have hz : ("".data : List Char).length = 0 := rfl
  rw [hz] at hlen
  exact hn hlen

/-- C8 counterexample: the scripts variant truncates a 3901-character caption
to its first 3900 characters with no visible truncation marker — the
description is a plain prefix of the caption (in particular it does not end
in the `...` marker the other variant appends). -/
theorem caption_truncation_no_marker_cex :
    3900 < (String.mk (List.replicate 3901 'a')).data.length ∧
    V2.send_desc (String.mk (List.replicate 3901 'a')) = String.mk (List.replicate 3900 'a') ∧
    V2.send_desc (String.mk (List.replicate 3901 'a')) ≠ String.mk (List.replicate 3901 'a') ∧
    ¬ ("...".data <:+ (V2.send_desc (String.mk (List.replicate 3901 'a'))).data) := by
  have hdesc : V2.send_desc (String.mk (List.replicate 3901 'a')) =
      String.mk (List.replicate 3900 'a') := by
    unfold V2.send_desc
    rw [if_pos (mk_replicate_ne_empty 3901 'a' (by omega))]
    show String.mk ((List.replicate 3901 'a').take 3900) = _
    rw [List.take_replicate]
    norm_num
  refine ⟨?_, hdesc, ?_, ?_⟩
  · show 3900 < (List.replicate 3901 'a').length
    rw [List.length_replicate]
    omega
  · rw [hdesc]
    intro h
    rw [String.ext_iff] at h
    have hlen := congrArg List.length h
    rw [List.length_replicate, List.length_replicate] at hlen
    omega
  · rw [hdesc]
    intro hsuf
    have hmem : '.' ∈ List.replicate 3900 'a' := hsuf.subset (by decide)
    exact absurd (List.eq_of_mem_replicate hmem) (by decide)

/-- C8 amended: the root variant truncates captions longer than 1500 code
points to exactly 1500 ending in the visible `...` marker; the scripts
variant truncates the embed description to at most 3900 code points but
appends no marker — the description is just the caption's prefix. -/
theorem caption_truncation_amended :
    (∀ item, 1500 < (V1.item_caption item).data.length →
      (V1.build_payload item).description =
        some (String.mk ((V1.item_caption item).data.take 1497) ++ "...") ∧
      ∀ d, (V1.build_payload item).description = some d →
        d.data.length = 1500 ∧ "...".data <:+ d.data) ∧
    (∀ c, (V2.send_desc c).data.length ≤ 3900 ∧
      (c ≠ "" → V2.send_desc c = String.mk (c.data.take 3900))) := by
  constructor
  · intro item h
    have hne : String.mk ((V1.item_caption item).data.take 1497) ++ "..." ≠ "" := by
      intro heq
      have := congrArg String.data heq
      rw [String.data_append] at this
      simp at this
    have hdesc : (V1.build_payload item).description =
        some (String.mk ((V1.item_caption item).data.take 1497) ++ "...") := by
      unfold V1.build_payload
      dsimp only
      rw [if_pos h, if_pos hne]
    refine ⟨hdesc, fun d hd => ?_⟩
    rw [hdesc] at hd
    have hd' := Option.some.inj hd
    subst hd'
    constructor
    · rw [String.data_append]
      rw [List.length_append]
      have : ((V1.item_caption item).data.take 1497).length = 1497 := by
        rw [List.length_take]
        omega
      rw [this]
      rfl
    · rw [String.data_append]
      exact List.suffix_append _ _
  · intro c
    constructor
    · unfold V2.send_desc
      by_cases hc : c = ""
      · rw [if_neg (by simp [hc])]
        decide
      · rw [if_pos hc]
        rw [List.length_take]
        omega
    · intro hc
      unfold V2.send_desc
      rw [if_pos hc]

namespace V2

/-- Spec-side: whether a response makes `_post_with_retries` retry
(rate-limit or server error). -/
def retryable (r : HttpResp) : Bool :=
  r.status == 429 || (decide (500 ≤ r.status) && decide (r.status < 600))

/-- Spec-side: the sleep the code performs for a retryable response at the
given attempt number. -/
def sleepOf (r : HttpResp) (attempt : Nat) : ℚ :=
  if r.status == 429 then r.retryAfter.getD 2 else (3 / 2 : ℚ) * attempt

/-- Spec-side restatement of the amended retry policy, written from the
claim's words: return the first non-retryable response immediately (having
slept once per earlier retryable response), and after three retryable
responses return the third. -/
def retryPolicySpec (resps : Nat → HttpResp) : RetryOutcome :=
  if ¬ retryable (resps 1) then ⟨resps 1, 1, []⟩
  else if ¬ retryable (resps 2) then ⟨resps 2, 2, [sleepOf (resps 1) 1]⟩
  else if ¬ retryable (resps 3) then ⟨resps 3, 3, [sleepOf (resps 1) 1, sleepOf (resps 2) 2]⟩
  else ⟨resps 3, 3, [sleepOf (resps 1) 1, sleepOf (resps 2) 2, sleepOf (resps 3) 3]⟩

end V2

/-- The implementation loop agrees with the spec-side retry policy. -/
theorem retry_eq_spec (resps : Nat → V2.HttpResp) :
    V2.post_with_retries resps = V2.retryPolicySpec resps := by
  unfold V2.post_with_retries V2.retryPolicySpec V2.retryable V2.sleepOf
  simp only [V2.retryGo]
  by_cases h1 : (resps 1).status == 429 <;>
    by_cases h1b : 500 ≤ (resps 1).status ∧ (resps 1).status < 600 <;>
      by_cases h2 : (resps 2).status == 429 <;>
        by_cases h2b : 500 ≤ (resps 2).status ∧ (resps 2).status < 600 <;>
          by_cases h3 : (resps 3).status == 429 <;>
            by_cases h3b : 500 ≤ (resps 3).status ∧ (resps 3).status < 600 <;>
              simp_all

/-- C3 counterexample: a response with informational status 100 — which is
neither 2xx nor 429 nor 5xx — is returned after a single request (no
retry), and the publish then *succeeds* (`_send_to_discord` only raises for
statuses ≥ 300), contradicting "on any other non-2xx response ... the
publish fails immediately". -/
theorem retry_nonretryable_sub300_cex :
    (V2.post_with_retries (fun _ => ⟨100, none⟩)).requests = 1 ∧
    (V2.post_with_retries (fun _ => ⟨100, none⟩)).resp.status = 100 ∧
    ¬(200 ≤ 100 ∧ 100 < 300) ∧
    V2.deliveryFails (V2.post_with_retries (fun _ => ⟨100, none⟩)).resp = false := by
  exact ⟨rfl, rfl, by decide, rfl⟩

/-- C3 amended: `_post_with_retries` makes at most 3 requests; a 429 sleeps
the server `Retry-After` (2 s fallback) and retries, a 5xx sleeps `1.5 *
attempt` and retries, and any other response is returned immediately after
which the publish fails exactly when its status is ≥ 300 (so 3xx/4xx fail
immediately, but sub-300 statuses are treated as success); three retryable
responses exhaust the attempts and the last response — being 429 or 5xx —
is a delivery failure. -/
theorem retry_policy_characterized (resps : Nat → V2.HttpResp) :
    V2.post_with_retries resps = V2.retryPolicySpec resps ∧
    (V2.post_with_retries resps).requests ≤ 3 ∧
    (¬ V2.retryable (resps 1) = true → V2.post_with_retries resps = ⟨resps 1, 1, []⟩) ∧
    ((∀ i, (resps i).status = 429) →
      (V2.post_with_retries resps).requests = 3 ∧
      V2.deliveryFails (V2.post_with_retries resps).resp = true) ∧
    (V2.deliveryFails (V2.post_with_retries resps).resp = true ↔
      300 ≤ (V2.post_with_retries resps).resp.status) := by
  refine ⟨retry_eq_spec resps, ?_, ?_, ?_, ?_⟩
  · rw [retry_eq_spec resps]
    unfold V2.retryPolicySpec
    split_ifs <;> simp
  · intro hnr
    rw [retry_eq_spec resps]
    unfold V2.retryPolicySpec
    rw [if_pos hnr]
  · intro h429
    have hr : ∀ i, V2.retryable (resps i) = true := by
      intro i
      simp [V2.retryable, h429 i]
    rw [retry_eq_spec resps]
    unfold V2.retryPolicySpec
    rw [if_neg (by simp [hr 1]), if_neg (by simp [hr 2]), if_neg (by simp [hr 3])]
    refine ⟨rfl, ?_⟩
    simp [V2.deliveryFails, h429 3]
  · simp [V2.deliveryFails]

/-- C3 witness: three consecutive 429 responses exhaust the three attempts
and the delivery fails. -/
theorem retry_policy_characterized_witness :
    (V2.post_with_retries (fun _ => ⟨429, some 1⟩)).requests = 3 ∧
    V2.deliveryFails (V2.post_with_retries (fun _ => ⟨429, some 1⟩)).resp = true :=
  (retry_policy_characterized (fun _ => ⟨429, some 1⟩)).2.2.2.1 (fun _ => rfl)

/-- C8 witness: a 1501-character caption is truncated by the root variant to
1497 characters plus the `...` marker, and a short caption passes through
the scripts variant unchanged. -/
theorem caption_truncation_amended_witness :
    1500 < (V1.item_caption [("caption", .vStr (String.mk (List.replicate 1501 'b')))]).data.length ∧
    (V1.build_payload [("caption", .vStr (String.mk (List.replicate 1501 'b')))]).description =
      some (String.mk (List.replicate 1497 'b') ++ "...") ∧
    V2.send_desc "x" = String.mk ("x".data.take 3900) := by
  have hstrip := pyStrip_replicate 1501 'b' (by decide)
  have hne := mk_replicate_ne_empty 1501 'b' (by omega)
  have hcap : V1.item_caption [("caption", .vStr (String.mk (List.replicate 1501 'b')))] =
      String.mk (List.replicate 1501 'b') := by
    unfold V1.item_caption
    have h1 : V1.captionKeyScan [("caption", .vStr (String.mk (List.replicate 1501 'b')))]
        ["caption", "text", "title", "captionText"] =
        some (String.mk (List.replicate 1501 'b')) := by
      unfold V1.captionKeyScan
      rw [show dictGet [("caption", .vStr (String.mk (List.replicate 1501 'b')))] "caption" =
        some (.vStr (String.mk (List.replicate 1501 'b'))) from rfl]
      dsimp only
      simp only [hstrip]
      rw [if_pos hne]
    rw [h1]
  have hlong : 1500 <
      (V1.item_caption [("caption", .vStr (String.mk (List.replicate 1501 'b')))]).data.length := by
    rw [hcap]
    show 1500 < (List.replicate 1501 'b').length
    rw [List.length_replicate]
    omega
  refine ⟨hlong, ?_, ?_⟩
  · have h := (caption_truncation_amended.1
      [("caption", .vStr (String.mk (List.replicate 1501 'b')))] hlong).1
    rw [hcap] at h
    have htake : (String.mk (List.replicate 1501 'b')).data.take 1497 =
        List.replicate 1497 'b' := by
      show (List.replicate 1501 'b').take 1497 = _
      rw [List.take_replicate]
      norm_num
    rw [htake] at h
    exact h
  · exact (caption_truncation_amended.2 "x").2 (by decide)


/-- The `childPosts` loop of `extract_media` never overwrites an image URL
that is already set. -/
theorem extractChildLoop_keeps_img (i : String) :
    ∀ cs vid, (V1.extractChildLoop (some i) vid cs).1 = some i := by
  intro cs
  induction cs with
  | nil => intro vid; rfl
  | cons c cs ih =>
    intro vid
    cases c <;> simp only [V1.extractChildLoop] <;> try exact ih vid
    split
    · rfl
    · apply ih

/-- C9 counterexample: for a video-typed item with both URLs present and two
carousel children repeating them, the apify fetcher emits the video *first*
(not image-before-video) and keeps the duplicated video URL (no
deduplication by resolved URL). -/
theorem apify_media_order_cex :
    V2.apifyMedia
        [("type", .vStr "Video"), ("videoUrl", .vStr "https://cdn/v.mp4"),
         ("displayUrl", .vStr "https://cdn/i.jpg"),
         ("childPosts", .vList [.vDict [("videoUrl", .vStr "https://cdn/v.mp4")],
                                .vDict [("displayUrl", .vStr "https://cdn/i.jpg")]])] =
      [⟨"https://cdn/v.mp4", true⟩, ⟨"https://cdn/v.mp4", true⟩,
       ⟨"https://cdn/i.jpg", false⟩] ∧
    ¬ ((V2.apifyMedia
        [("type", .vStr "Video"), ("videoUrl", .vStr "https://cdn/v.mp4"),
         ("displayUrl", .vStr "https://cdn/i.jpg"),
         ("childPosts", .vList [.vDict [("videoUrl", .vStr "https://cdn/v.mp4")],
                                .vDict [("displayUrl", .vStr "https://cdn/i.jpg")]])]).map
        (fun m => m.url)).Nodup ∧
    ((V2.apifyMedia
        [("type", .vStr "Video"), ("videoUrl", .vStr "https://cdn/v.mp4"),
         ("displayUrl", .vStr "https://cdn/i.jpg"),
         ("childPosts", .vList [.vDict [("videoUrl", .vStr "https://cdn/v.mp4")],
                                .vDict [("displayUrl", .vStr "https://cdn/i.jpg")]])]).getD 0
        ⟨"", false⟩).is_video = true ∧
    ((V2.apifyMedia
        [("type", .vStr "Video"), ("videoUrl", .vStr "https://cdn/v.mp4"),
         ("displayUrl", .vStr "https://cdn/i.jpg"),
         ("childPosts", .vList [.vDict [("videoUrl", .vStr "https://cdn/v.mp4")],
                                .vDict [("displayUrl", .vStr "https://cdn/i.jpg")]])]).getD 2
        ⟨"", false⟩).is_video = false := by
  exact ⟨by decide, by decide, by decide, by decide⟩

/-- C9 amended: the root variant's `extract_media` fills the image slot from
the image fields before any video field is considered; the scripts variant's
apify fetcher prefers the video URL both at the top level (when the item is
typed Video) and per carousel child, flattens the children in document order
(the extraction distributes over concatenation), appending them after the
top-level asset, and performs no deduplication by URL. -/
theorem media_extraction_amended :
    (∀ item v, dictGet item "displayUrl" = some (.vStr v) → pyStrip v ≠ "" →
      (V1.extract_media item).1 = some (pyStrip v)) ∧
    (∀ item v, dictGet item "type" = some (.vStr "Video") →
      dictGet item "videoUrl" = some (.vStr v) → v ≠ "" →
      V2.apifyTopMedia item = [⟨v, true⟩]) ∧
    (∀ child v, dictGet child "videoUrl" = some (.vStr v) → v ≠ "" →
      V2.childAsset child = some ⟨v, true⟩) ∧
    (∀ xs ys, V2.apifyChildMedia (xs ++ ys) =
      V2.apifyChildMedia xs ++ V2.apifyChildMedia ys) ∧
    (∀ item cs, dictGet item "childPosts" = some (.vList cs) →
      V2.apifyMedia item = V2.apifyTopMedia item ++ V2.apifyChildMedia cs) := by
  refine ⟨?_, ?_, ?_, ?_, ?_⟩
  · intro item v hv hne
    have himg : V1.imageKeyScan item ["displayUrl", "imageUrl", "thumbnailUrl"] =
        some (pyStrip v) := by
      unfold V1.imageKeyScan
      rw [hv]
      simp [hne]
    unfold V1.extract_media
    dsimp only
    rw [himg]
    split
    · exact extractChildLoop_keeps_img _ _ _
    · rfl
  · intro item v htype hvu hne
    unfold V2.apifyTopMedia
    rw [htype, hvu]
    simp [pyTruthy, V2.asStr, hne]
  · intro child v hvu hne
    unfold V2.childAsset
    rw [hvu]
    simp [pyOr, pyTruthy, V2.asStr, hne]
  · intro xs ys
    induction xs with
    | nil => rfl
    | cons x xs ih =>
      cases x <;> simp [V2.apifyChildMedia, ih]
  · intro item cs h
    unfold V2.apifyMedia
    rw [h]

/-- C9 witness of the amended statement: concrete items exercising each
clause. -/
theorem media_extraction_amended_witness :
    (V1.extract_media [("displayUrl", .vStr "https://cdn/i.jpg"),
                       ("videoUrl", .vStr "https://cdn/v.mp4")]).1 =
      some (pyStrip "https://cdn/i.jpg") ∧
    V2.apifyTopMedia [("type", .vStr "Video"), ("videoUrl", .vStr "https://cdn/v.mp4"),
                      ("displayUrl", .vStr "https://cdn/i.jpg")] =
      [⟨"https://cdn/v.mp4", true⟩] ∧
    V2.childAsset [("videoUrl", .vStr "https://cdn/v.mp4"),
                   ("displayUrl", .vStr "https://cdn/i.jpg")] =
      some ⟨"https://cdn/v.mp4", true⟩ := by
  refine ⟨?_, ?_, ?_⟩
  · exact media_extraction_amended.1 [("displayUrl", .vStr "https://cdn/i.jpg"),
      ("videoUrl", .vStr "https://cdn/v.mp4")] "https://cdn/i.jpg" rfl (by decide)
  · exact media_extraction_amended.2.1 [("type", .vStr "Video"),
      ("videoUrl", .vStr "https://cdn/v.mp4"), ("displayUrl", .vStr "https://cdn/i.jpg")]
      "https://cdn/v.mp4" rfl rfl (by decide)
  · exact media_extraction_amended.2.2.1 [("videoUrl", .vStr "https://cdn/v.mp4"),
      ("displayUrl", .vStr "https://cdn/i.jpg")] "https://cdn/v.mp4" rfl (by decide)

/-- Every 32-bit word renders to exactly 8 hex digits. -/
theorem hex8_length (w : Nat) : (hex8 w).length = 8 := by
  simp [hex8]

/-- A SHA-256 hex digest always has 64 characters. -/
theorem sha256hex_length (msg : List Nat) : (sha256hex msg).length = 64 := by
  unfold sha256hex
  dsimp only
  simp [String.length, hex8_length]

/-- C7 counterexample: an item carrying only a post permalink has no
identifier field, yet its dedupe key is the URL itself, not a content hash
of the normalized item (a SHA-256 hex digest has 64 characters, this key
has 32). -/
theorem item_key_url_fallback_cex :
    V1.hasIdKey [("permalink", .vStr "https://www.instagram.com/p/ABC/")] = false ∧
    V1.item_key 0 [("permalink", .vStr "https://www.instagram.com/p/ABC/")] =
      "https://www.instagram.com/p/ABC/" ∧
    V1.item_key 0 [("permalink", .vStr "https://www.instagram.com/p/ABC/")] ≠
      sha256hex (utf8Bytes (jsonDumps
        (.vDict [("permalink", .vStr "https://www.instagram.com/p/ABC/")]))) := by
  refine ⟨by decide, by decide, ?_⟩
  intro h
  have hl := congrArg String.length h
  rw [sha256hex_length] at hl
  rw [(by decide : V1.item_key 0 [("permalink", .vStr "https://www.instagram.com/p/ABC/")] =
    "https://www.instagram.com/p/ABC/")] at hl
  exact absurd hl (by decide)

/-- C7 amended: the dedupe key is a pure function of the item — evaluations
under any two per-process hash seeds agree — and when no identifier field is
present the key falls back to the post URL when the item yields one, and
otherwise to the SHA-256 hex digest of the sorted JSON serialization of the
item, never a process-randomized hash. -/
theorem item_key_deterministic (item : Item) :
    (∀ s₁ s₂ : Nat, V1.item_key s₁ item = V1.item_key s₂ item) ∧
    (V1.hasIdKey item = false → V1.item_url item = V1.PROFILE_URL →
      ∀ seed, V1.item_key seed item = sha256hex (utf8Bytes (jsonDumps (.vDict item)))) ∧
    (V1.hasIdKey item = false → V1.item_url item ≠ V1.PROFILE_URL →
      ∀ seed, V1.item_key seed item = V1.item_url item) := by
  have hnone : V1.hasIdKey item = false →
      V1.idKeyScan item ["id", "shortCode", "shortcode", "code", "pk"] = none := by
    intro h
    unfold V1.hasIdKey at h
    exact Option.not_isSome_iff_eq_none.mp (by simp [h])
  refine ⟨fun s₁ s₂ => rfl, ?_, ?_⟩
  · intro hid hurl seed
    unfold V1.item_key
    rw [hnone hid]
    dsimp only
    rw [if_neg (by simp [hurl])]
  · intro hid hurl seed
    unfold V1.item_key
    rw [hnone hid]
    dsimp only
    rw [if_pos hurl]

/-- C7 witness: an item with neither identifier fields nor a post URL falls
back to the content hash, and the key does not depend on the hash seed. -/
theorem item_key_deterministic_witness :
    V1.hasIdKey [("foo", .vStr "bar")] = false ∧
    V1.item_url [("foo", .vStr "bar")] = V1.PROFILE_URL ∧
    V1.item_key 0 [("foo", .vStr "bar")] =
      sha256hex (utf8Bytes (jsonDumps (.vDict [("foo", .vStr "bar")]))) ∧
    V1.item_key 1 [("foo", .vStr "bar")] = V1.item_key 2 [("foo", .vStr "bar")] :=
  ⟨by decide, by decide,
   (item_key_deterministic [("foo", .vStr "bar")]).2.1 (by decide) (by decide) 0,
   (item_key_deterministic [("foo", .vStr "bar")]).1 1 2⟩

/-- A completed stream returns the full concatenation of the chunks and
stays within the byte limit. -/
theorem streamChunks_ok (maxBytes : Nat) :
    ∀ (chunks : List (List Nat)) (written : Nat) (acc res : List Nat),
      written = acc.length → written ≤ maxBytes →
      V2.streamChunks maxBytes chunks written acc = .ok res →
      res = acc ++ chunks.flatten ∧ res.length ≤ maxBytes := by
  intro chunks
  induction chunks with
  | nil =>
    intro written acc res hw hle h
    have hres : acc = res := Except.ok.inj h
    subst hres
    exact ⟨by simp, by omega⟩
  | cons c cs ih =>
    intro written acc res hw hle h
    unfold V2.streamChunks at h
    by_cases hce : c.isEmpty
    · rw [if_pos hce] at h
      have hc : c = [] := List.isEmpty_iff.mp hce
      subst hc
      have := ih written acc res hw hle h
      simpa using this
    · rw [if_neg hce] at h
      dsimp only at h
      by_cases hov : maxBytes < written + c.length
      · rw [if_pos hov] at h
        exact absurd h (by simp)
      · rw [if_neg hov] at h
        have := ih (written + c.length) (acc ++ c) res (by simp [hw]) (le_of_not_lt hov) h
        exact ⟨by rw [this.1]; simp, this.2⟩

/-- A stream whose total exceeds the limit aborts with an error. -/
theorem streamChunks_over (maxBytes : Nat) :
    ∀ (chunks : List (List Nat)) (written : Nat) (acc : List Nat),
      written ≤ maxBytes →
      maxBytes < written + (chunks.flatten).length →
      ∃ p, V2.streamChunks maxBytes chunks written acc = .error p := by
  intro chunks
  induction chunks with
  | nil =>
    intro written acc hle hover
    simp at hover
    omega
  | cons c cs ih =>
    intro written acc hle hover
    unfold V2.streamChunks
    by_cases hce : c.isEmpty
    · rw [if_pos hce]
      have hc : c = [] := List.isEmpty_iff.mp hce
      subst hc
      exact ih written acc hle (by simpa using hover)
    · rw [if_neg hce]
      dsimp only
      by_cases hov : maxBytes < written + c.length
      · rw [if_pos hov]
        exact ⟨acc ++ c, rfl⟩
      · rw [if_neg hov]
        refine ih (written + c.length) (acc ++ c) (le_of_not_lt hov) ?_
        simp at hover ⊢
        omega

/-- Deleting the path just written is the same as deleting it outright. -/
theorem diskRemove_diskSet (disk : V2.ByteFs) (p : String) (c : List Nat) :
    V2.diskRemove (V2.diskSet disk p c) p = V2.diskRemove disk p := by
  unfold V2.diskRemove V2.diskSet
  rw [List.filter_cons, if_neg (by simp)]
  rw [List.filter_filter]
  simp [Bool.and_self]

/-- A deleted path has no content. -/
theorem diskGet_diskRemove_self (disk : V2.ByteFs) (p : String) :
    V2.diskGet (V2.diskRemove disk p) p = none := by
  unfold V2.diskGet V2.diskRemove
  have hfind : List.find? (fun q => q.1 == p) (disk.filter fun q => decide (q.1 ≠ p)) = none := by
    rw [List.find?_eq_none]
    intro x hx
    have hmem := (List.mem_filter.mp hx).2
    simp at hmem ⊢
    exact hmem
  rw [hfind]

/-- The streaming arm of the loop body: when it reports a saved file, that
file is the full stream within the limit. -/
theorem processItem_stream_some (maxBytes : Nat) (disk : V2.ByteFs) (fp : String)
    (chunks : List (List Nat)) (disk' : V2.ByteFs) (saved : String × List Nat)
    (h : (match V2.streamChunks maxBytes chunks 0 [] with
          | .error pc => (V2.diskRemove (V2.diskSet disk fp pc) fp, none)
          | .ok content => (V2.diskSet disk fp content, some (fp, content)))
        = (disk', some saved)) :
    saved.2 = chunks.flatten ∧ saved.2.length ≤ maxBytes := by
  rcases hst : V2.streamChunks maxBytes chunks 0 [] with p | content
  · rw [hst] at h
    exact absurd (congrArg Prod.snd h) (by simp)
  · rw [hst] at h
    have hsaved := congrArg Prod.snd h
    simp only [Option.some.injEq] at hsaved
    have hspec := streamChunks_ok maxBytes chunks 0 [] content rfl (Nat.zero_le _) hst
    rw [← hsaved]
    exact ⟨by simpa using hspec.1, hspec.2⟩

/-- A saved item comes from a streaming response whose content completed in
full and within the limit. -/
theorem processItem_some (maxBytes idx : Nat) (disk : V2.ByteFs) (media : V2.MediaItem)
    (resp : V2.MediaResp) (disk' : V2.ByteFs) (saved : String × List Nat)
    (h : V2.processItem maxBytes idx disk media resp = (disk', some saved)) :
    ∃ sizeHint ct chunks, resp = .ok sizeHint ct chunks ∧
      saved.2 = chunks.flatten ∧ saved.2.length ≤ maxBytes := by
  cases resp with
  | netErr => exact absurd (congrArg Prod.snd h) (by simp [V2.processItem])
  | ok sizeHint ct chunks =>
    unfold V2.processItem at h
    dsimp only at h
    refine ⟨sizeHint, ct, chunks, rfl, ?_⟩
    by_cases hb : V2.hintExceeds maxBytes sizeHint = true
    · rw [if_pos hb] at h
      exact absurd (congrArg Prod.snd h) (by simp)
    · rw [if_neg hb] at h
      exact processItem_stream_some maxBytes disk _ chunks disk' saved h

/-- Everything the download loop returns was either already in `files` or is
a completed in-limit download of one of the supplied items. -/
theorem downloadLoop_mem (maxFiles maxBytes : Nat) :
    ∀ (items : List (V2.MediaItem × V2.MediaResp)) (idx : Nat)
      (files : List (String × List Nat)) (disk : V2.ByteFs) (fp : String) (c : List Nat),
      (fp, c) ∈ (V2.downloadLoop maxFiles maxBytes items idx files disk).1 →
      (fp, c) ∈ files ∨
      (c.length ≤ maxBytes ∧ ∃ m sizeHint ct chunks,
        (m, V2.MediaResp.ok sizeHint ct chunks) ∈ items ∧ c = chunks.flatten) := by
  intro items
  induction items with
  | nil =>
    intro idx files disk fp c h
    exact Or.inl h
  | cons it rest ih =>
    intro idx files disk fp c h
    rcases it with ⟨media, resp⟩
    unfold V2.downloadLoop at h
    by_cases hfull : maxFiles ≤ files.length
    · rw [if_pos hfull] at h
      exact Or.inl h
    · rw [if_neg hfull] at h
      rcases hpi : V2.processItem maxBytes idx disk media resp with ⟨disk', saved⟩
      rw [hpi] at h
      cases saved with
      | none =>
        dsimp only at h
        rcases ih (idx + 1) files disk' fp c h with h' | ⟨hlen, m, s, ct, ch, hm, hc⟩
        · exact Or.inl h'
        · exact Or.inr ⟨hlen, m, s, ct, ch, List.mem_cons_of_mem _ hm, hc⟩
      | some sv =>
        dsimp only at h
        rcases ih (idx + 1) (files ++ [sv]) disk' fp c h with h' | ⟨hlen, m, s, ct, ch, hm, hc⟩
        · rcases List.mem_append.mp h' with h'' | h''
          · exact Or.inl h''
          · have hsv : sv = (fp, c) := (List.mem_singleton.mp h'').symm
            subst hsv
            rcases processItem_some maxBytes idx disk media resp disk' (fp, c) hpi with
              ⟨sizeHint, ct', chunks, hresp, hcontent, hlen'⟩
            subst hresp
            exact Or.inr ⟨hlen', media, sizeHint, ct', chunks, List.mem_cons_self _ _, hcontent⟩
        · exact Or.inr ⟨hlen, m, s, ct, ch, List.mem_cons_of_mem _ hm, hc⟩

set_option maxHeartbeats 1000000 in
/-- C6: a media item whose streamed cumulative byte count exceeds the
per-item limit is aborted — the partial file is deleted (its path holds no
bytes afterwards) and the item contributes nothing to the returned files —
and every file the download loop returns is the complete concatenation of
its item's streamed chunks, of size at most the limit. -/
theorem download_media_size_limit :
    (∀ (maxBytes idx : Nat) (disk : V2.ByteFs) (media : V2.MediaItem)
        (sizeHint : Option Nat) (ct : Option String) (chunks : List (List Nat)),
      (∀ n, sizeHint = some n → n ≤ maxBytes) →
      maxBytes < (chunks.flatten).length →
      V2.processItem maxBytes idx disk media (.ok sizeHint ct chunks) =
        (V2.diskRemove disk
          ("media_" ++ natDecimal (idx + 1) ++ V2.guess_extension media.url ct), none) ∧
      V2.diskGet (V2.processItem maxBytes idx disk media (.ok sizeHint ct chunks)).1
        ("media_" ++ natDecimal (idx + 1) ++ V2.guess_extension media.url ct) = none) ∧
    (∀ (maxFiles maxBytes : Nat) (items : List (V2.MediaItem × V2.MediaResp))
        (fp : String) (c : List Nat),
      (fp, c) ∈ (V2.download_media maxFiles maxBytes items).1 →
      c.length ≤ maxBytes ∧ ∃ m sizeHint ct chunks,
        (m, V2.MediaResp.ok sizeHint ct chunks) ∈ items ∧ c = chunks.flatten) := by
  constructor
  · intro maxBytes idx disk media sizeHint ct chunks hhint hover
    obtain ⟨p, hp⟩ :=
      streamChunks_over maxBytes chunks 0 [] (Nat.zero_le _) (by simpa using hover)
    have heq : V2.processItem maxBytes idx disk media (.ok sizeHint ct chunks) =
        (V2.diskRemove
          (V2.diskSet disk
            ("media_" ++ natDecimal (idx + 1) ++ V2.guess_extension media.url ct) p)
          ("media_" ++ natDecimal (idx + 1) ++ V2.guess_extension media.url ct), none) := by
      have hcond : V2.hintExceeds maxBytes sizeHint = false := by
        cases sizeHint with
        | none => rfl
        | some n => exact decide_eq_false (Nat.not_lt.mpr (hhint n rfl))
      unfold V2.processItem
      dsimp only
      rw [if_neg (by simp [hcond])]
      rw [hp]
    constructor
    · rw [heq, diskRemove_diskSet]
    · rw [heq]
      exact diskGet_diskRemove_self _ _
  · intro maxFiles maxBytes items fp c h
    unfold V2.download_media at h
    rcases downloadLoop_mem maxFiles maxBytes items 0 [] [] fp c h with h' | h'
    · exact absurd h' (List.not_mem_nil _)
    · exact h'

/-- C6 witness: a 5-byte stream against a 4-byte limit is aborted with its
partial file deleted and nothing returned, while a 1-byte download is saved
intact within the limit. -/
theorem download_media_size_limit_witness :
    V2.processItem 4 0 [] ⟨"u.bin", false⟩ (.ok none none [[1, 2, 3], [4, 5]]) =
      (V2.diskRemove [] ("media_" ++ natDecimal 1 ++ V2.guess_extension "u.bin" none), none) ∧
    V2.diskGet (V2.processItem 4 0 [] ⟨"u.bin", false⟩ (.ok none none [[1, 2, 3], [4, 5]])).1
      ("media_" ++ natDecimal 1 ++ V2.guess_extension "u.bin" none) = none ∧
    ("media_1.jpg", [9]) ∈
      (V2.download_media 4 4 [(⟨"u.jpg", false⟩, .ok none none [[9]])]).1 ∧
    ([9] : List Nat).length ≤ 4 ∧
    ∃ m sizeHint ct chunks,
      (m, V2.MediaResp.ok sizeHint ct chunks) ∈ [((⟨"u.jpg", false⟩ : V2.MediaItem),
        V2.MediaResp.ok none none [[9]])] ∧ ([9] : List Nat) = chunks.flatten := by
  have h1 := download_media_size_limit.1 4 0 [] ⟨"u.bin", false⟩ none none [[1, 2, 3], [4, 5]]
    (fun n hn => Option.noConfusion hn) (by decide)
  have h2 := download_media_size_limit.2 4 4 [(⟨"u.jpg", false⟩, .ok none none [[9]])]
    "media_1.jpg" [9] (by decide)
  exact ⟨h1.1, h1.2, by decide, h2.1, h2.2⟩
